import Mathlib

/-!
Shallow embedding of the zenroomjs builder/state/bridge layer
(src/src/wrapper.js) and proofs about its specification.

The wrapper keeps a mutable record self with fields zencode, conf, keys,
data, verbosity, print, success, error and a persistent options store
self.options; setters mutate self; the three hook setters also write into
the engine binding C (C.print, C.exec_ok, C.exec_error); exec marshals the
five payload fields through zenroomExec into C.ccall; init merges an
options object into self.options and re-derives every field through the
setters; reset replaces self with a fresh record and re-registers default
hooks via __setup.

JavaScript values are modelled by the inductive JSVal; an absent record
field is JSVal.undef, matching the undefined a JS property read yields.
Caller-supplied callback functions are modelled by Hook, identified up to
observable behaviour: both noop forms used by the source (an arrow
function and new Function) are Hook.noop, and the default print callback
is Hook.consoleLog.
-/

/-- A JavaScript value as it appears in the wrapper: undefined, null,
booleans, numbers (integer-valued, which covers the verbosity levels the
wrapper handles), strings, arrays and plain objects. -/
inductive JSVal where
  | undef : JSVal
  | null : JSVal
  | bool : Bool → JSVal
  | num : Int → JSVal
  | str : String → JSVal
  | arr : List JSVal → JSVal
  | obj : List (String × JSVal) → JSVal

/-- Pick the first value unless it is undefined. This is the semantics of
a JS default parameter (which applies exactly when the argument is
undefined) and, under the absent-as-undef encoding, of the presence test
Object.assign performs per field. -/
def JSVal.orDefault : JSVal → JSVal → JSVal
  | .undef, d => d
  | v, _ => v

/-- JavaScript truthiness: undefined, null, false, 0 and the empty string
are falsy; every other value, in particular every object and array, is
truthy. Used by the source in keys ? ... : null and in the x || d
default expressions of init and __setup. -/
def truthy : JSVal → Bool
  | .undef => false
  | .null => false
  | .bool b => b
  | .num n => n != 0
  | .str s => !s.isEmpty
  | .arr _ => true
  | .obj _ => true

/-- JSON string escaping for JSON.stringify: quote, backslash and the
common control characters are escaped; other characters pass through. -/
def escapeChar (c : Char) : String :=
  if c = '\"' then "\\\""
  else if c = '\\' then "\\\\"
  else if c = '\n' then "\\n"
  else if c = '\t' then "\\t"
  else if c = '\r' then "\\r"
  else String.singleton c

def escapeString (s : String) : String :=
  String.join (s.toList.map escapeChar)

mutual
/-- JSON.stringify on defined values. An undefined value inside an array
serializes as null, and an object member whose value is undefined is
omitted, as in ECMA-404 stringify; the wrapper only ever applies this to
truthy values, so the top-level undef case is unreachable there and is
mapped to null for totality. -/
def stringify : JSVal → String
  | .undef => "null"
  | .null => "null"
  | .bool true => "true"
  | .bool false => "false"
  | .num n => toString n
  | .str s => "\"" ++ escapeString s ++ "\""
  | .arr xs => "[" ++ String.intercalate "," (stringifyElems xs) ++ "]"
  | .obj fs => "\x7b" ++ String.intercalate "," (stringifyMembers fs) ++ "\x7d"

def stringifyElems : List JSVal → List String
  | [] => []
  | x :: xs => stringify x :: stringifyElems xs

def stringifyMembers : List (String × JSVal) → List String
  | [] => []
  | (k, v) :: fs =>
    match v with
    | .undef => stringifyMembers fs
    | _ => ("\"" ++ escapeString k ++ "\":" ++ stringify v) :: stringifyMembers fs
end

/-- A caller-supplied callback, identified by observable behaviour:
consoleLog is the default print callback text => console.log(text); noop
covers the two no-op defaults of the source (the arrow function of
__setup and the new Function of init); custom n stands for a distinct
caller-provided function. -/
inductive Hook where
  | consoleLog : Hook
  | noop : Hook
  | custom : Nat → Hook
  deriving DecidableEq

/-- The persistent options store self.options, restricted to the eight
recognized fields that init reads. Payload fields use JSVal.undef for an
absent property (reads of the store go through x || d, which treats a
present undefined exactly like an absent field, so the conflation is
invisible); hook fields use Option Hook with none for absent. Unrecognized
properties of the options object are retained by Object.assign but never
read, so they are not modelled. -/
structure Options where
  zencode : JSVal
  keys : JSVal
  conf : JSVal
  data : JSVal
  print : Option Hook
  success : Option Hook
  error : Option Hook
  verbosity : JSVal

def Options.empty : Options :=
  ⟨.undef, .undef, .undef, .undef, none, none, none, .undef⟩

/-- Object.assign(store, o): fields present in o overwrite same-named
fields of the store; absent fields are retained. -/
def Options.assign (store o : Options) : Options where
  zencode := o.zencode.orDefault store.zencode
  keys := o.keys.orDefault store.keys
  conf := o.conf.orDefault store.conf
  data := o.data.orDefault store.data
  print := o.print.orElse fun _ => store.print
  success := o.success.orElse fun _ => store.success
  error := o.error.orElse fun _ => store.error
  verbosity := o.verbosity.orDefault store.verbosity

/-- The mutable record self of the wrapper closure. A payload field that
has never been assigned reads as JSVal.undef; a hook field that has never
been assigned reads as none. -/
structure SelfState where
  zencode : JSVal
  conf : JSVal
  keys : JSVal
  data : JSVal
  verbosity : JSVal
  print : Option Hook
  success : Option Hook
  error : Option Hook
  options : Options

/-- self immediately after self = \x7b\x7d; self.options = \x7b\x7d. -/
def SelfState.empty : SelfState :=
  ⟨.undef, .undef, .undef, .undef, .undef, none, none, none, Options.empty⟩

/-- The slot C.print of the engine binding: engine is whatever the binding
held before the wrapper installed anything; wrapper is the closure
text => self.print(text) installed by the print setter, which delegates to
the current self.print at invocation time. -/
inductive PrintSlot where
  | engine : PrintSlot
  | wrapper : PrintSlot
  deriving DecidableEq

/-- The Callback Hook Registry: the slots C.print, C.exec_ok and
C.exec_error on the engine binding. exec_ok and exec_error hold direct
references to the registered callbacks (none before any registration). -/
structure Registry where
  print : PrintSlot
  exec_ok : Option Hook
  exec_error : Option Hook
  deriving DecidableEq

/-- One call across the foreign boundary: the five values handed to
C.ccall, in the fixed order (zencode, conf, keys, data, verbosity). -/
structure CCall where
  zencode : JSVal
  conf : JSVal
  keys : JSVal
  data : JSVal
  verbosity : JSVal

/-- zenroomExec(zencode, conf = null, keys = null, data = null,
verbosity = 1): a JS default parameter replaces an undefined argument by
the default; zencode has no default, so undefined passes through. -/
def zenroomExec (z c k d v : JSVal) : CCall where
  zencode := z
  conf := c.orDefault .null
  keys := k.orDefault .null
  data := d.orDefault .null
  verbosity := v.orDefault (.num 1)

/-- The whole observable state: the wrapper record self, the engine
binding slots, and the trace of foreign calls issued so far. -/
structure ZState where
  self : SelfState
  reg : Registry
  trace : List CCall

/-- The module handle every public method returns (return this). -/
inductive Handle where
  | zenroom : Handle
  deriving DecidableEq

/-- zencode(z): self.zencode = z; return this. -/
def zencodeSet (v : JSVal) (st : ZState) : ZState :=
  { st with self := { st.self with zencode := v } }

/-- The value the keys setter stores for an argument k:
k ? JSON.stringify(k) : null. -/
def keysStored (v : JSVal) : JSVal :=
  if truthy v then .str (stringify v) else .null

/-- keys(k): self.keys = k ? JSON.stringify(k) : null; return this. -/
def keysSet (v : JSVal) (st : ZState) : ZState :=
  { st with self := { st.self with keys := keysStored v } }

/-- conf(c): self.conf = c; return this. -/
def confSet (v : JSVal) (st : ZState) : ZState :=
  { st with self := { st.self with conf := v } }

/-- data(d): self.data = d; return this. -/
def dataSet (v : JSVal) (st : ZState) : ZState :=
  { st with self := { st.self with data := v } }

/-- verbosity(n): self.verbosity = n; return this. -/
def verbositySet (v : JSVal) (st : ZState) : ZState :=
  { st with self := { st.self with verbosity := v } }

/-- print(f): self.print = f; C.print = text => self.print(text);
return this. -/
def printSet (h : Hook) (st : ZState) : ZState :=
  { st with
    self := { st.self with print := some h }
    reg := { st.reg with print := .wrapper } }

/-- success(f): self.success = f; C.exec_ok = f; return this. -/
def successSet (h : Hook) (st : ZState) : ZState :=
  { st with
    self := { st.self with success := some h }
    reg := { st.reg with exec_ok := some h } }

/-- error(f): self.error = f; C.exec_error = f; return this. -/
def errorSet (h : Hook) (st : ZState) : ZState :=
  { st with
    self := { st.self with error := some h }
    reg := { st.reg with exec_error := some h } }

/-- The foreign call exec issues from a given state. -/
def execArgs (st : ZState) : CCall :=
  zenroomExec st.self.zencode st.self.conf st.self.keys st.self.data
    st.self.verbosity

/-- exec(): zenroomExec(self.zencode, self.conf, self.keys, self.data,
self.verbosity); return this. The returned handle is made explicit. -/
def execCall (st : ZState) : ZState × Handle :=
  ({ st with trace := st.trace ++ [execArgs st] }, .zenroom)

/-- init(options): self.options = Object.assign(self.options, options)
(the || \x7b\x7d fallback in the source is dead: Object.assign on an
object returns that object, which is truthy); then every setter is invoked
with the stored value or its default via x || d. -/
def initOp (o : Options) (st : ZState) : ZState :=
  let merged := Options.assign st.self.options o
  let st0 := { st with self := { st.self with options := merged } }
  let st1 := zencodeSet (if truthy merged.zencode then merged.zencode else .str "") st0
  let st2 := keysSet (if truthy merged.keys then merged.keys else .null) st1
  let st3 := confSet (if truthy merged.conf then merged.conf else .null) st2
  let st4 := dataSet (if truthy merged.data then merged.data else .null) st3
  let st5 := printSet (merged.print.getD .consoleLog) st4
  let st6 := successSet (merged.success.getD .noop) st5
  let st7 := errorSet (merged.error.getD .noop) st6
  verbositySet (if truthy merged.verbosity then merged.verbosity else .num 1) st7

/-- __setup(): print(self.print || default); success(self.success || noop);
error(self.error || noop). A present hook is a function, hence truthy, so
x || d is getD. -/
def setup (st : ZState) : ZState :=
  let st1 := printSet (st.self.print.getD .consoleLog) st
  let st2 := successSet (st.self.success.getD .noop) st1
  errorSet (st.self.error.getD .noop) st2

/-- reset(): self = \x7b\x7d; self.options = \x7b\x7d; __setup();
return this. -/
def resetOp (st : ZState) : ZState :=
  setup { st with self := SelfState.empty }

/-- The state of the freshly evaluated module: the IIFE sets
self = \x7b\x7d, self.options = \x7b\x7d and runs __setup() once; before
that the binding slots hold their engine-side values. -/
def initState : ZState :=
  setup ⟨SelfState.empty, ⟨.engine, none, none⟩, []⟩

/-- One public API call, as an operation on the observable state. -/
inductive Op where
  | zencode : JSVal → Op
  | keys : JSVal → Op
  | conf : JSVal → Op
  | data : JSVal → Op
  | verbosity : JSVal → Op
  | print : Hook → Op
  | success : Hook → Op
  | error : Hook → Op
  | init : Options → Op
  | exec : Op
  | reset : Op

def step (st : ZState) : Op → ZState
  | .zencode v => zencodeSet v st
  | .keys v => keysSet v st
  | .conf v => confSet v st
  | .data v => dataSet v st
  | .verbosity v => verbositySet v st
  | .print h => printSet h st
  | .success h => successSet h st
  | .error h => errorSet h st
  | .init o => initOp o st
  | .exec => (execCall st).1
  | .reset => resetOp st

/-- Run a sequence of API calls from a state. -/
def run (st : ZState) (ops : List Op) : ZState :=
  ops.foldl step st

/-- The hook an invocation of the C.print slot reaches: the engine-side
slot reaches no caller hook; the installed wrapper text => self.print(text)
reaches whatever self.print currently holds. -/
def printSlotHook (st : ZState) : Option Hook :=
  match st.reg.print with
  | .engine => none
  | .wrapper => st.self.print

/-- Whether an operation assigns self.zencode (the zencode setter, and
init, which re-derives every field). reset clears the field but does not
set it. -/
def setsScript : Op → Bool
  | .zencode _ => true
  | .init _ => true
  | _ => false

def setsConf : Op → Bool
  | .conf _ => true
  | .init _ => true
  | _ => false

def setsKeys : Op → Bool
  | .keys _ => true
  | .init _ => true
  | _ => false

def setsData : Op → Bool
  | .data _ => true
  | .init _ => true
  | _ => false

def setsVerbosity : Op → Bool
  | .verbosity _ => true
  | .init _ => true
  | _ => false

@[simp]
theorem run_nil (st : ZState) : run st [] = st := rfl

@[simp]
theorem run_cons (st : ZState) (op : Op) (ops : List Op) :
    run st (op :: ops) = run (step st op) ops := rfl

theorem run_append (st : ZState) (l1 l2 : List Op) :
    run st (l1 ++ l2) = run (run st l1) l2 :=
  List.foldl_append ..

theorem zencode_undef_preserved (ops : List Op)
    (h : ∀ op ∈ ops, setsScript op = false) (st : ZState)
    (hz : st.self.zencode = .undef) : (run st ops).self.zencode = .undef := by
  induction ops generalizing st with
  | nil => exact hz
  | cons op ops ih =>
    refine ih (fun o ho => h o (List.mem_cons_of_mem _ ho)) _ ?_
    have h0 := h op (List.mem_cons_self ..)
    cases op <;> simp_all [step, setsScript, zencodeSet, keysSet, confSet,
      dataSet, verbositySet, printSet, successSet, errorSet, execCall,
      resetOp, setup, SelfState.empty]

theorem conf_undef_preserved (ops : List Op)
    (h : ∀ op ∈ ops, setsConf op = false) (st : ZState)
    (hz : st.self.conf = .undef) : (run st ops).self.conf = .undef := by
  induction ops generalizing st with
  | nil => exact hz
  | cons op ops ih =>
    refine ih (fun o ho => h o (List.mem_cons_of_mem _ ho)) _ ?_
    have h0 := h op (List.mem_cons_self ..)
    cases op <;> simp_all [step, setsConf, zencodeSet, keysSet, confSet,
      dataSet, verbositySet, printSet, successSet, errorSet, execCall,
      resetOp, setup, SelfState.empty]

theorem keys_undef_preserved (ops : List Op)
    (h : ∀ op ∈ ops, setsKeys op = false) (st : ZState)
    (hz : st.self.keys = .undef) : (run st ops).self.keys = .undef := by
  induction ops generalizing st with
  | nil => exact hz
  | cons op ops ih =>
    refine ih (fun o ho => h o (List.mem_cons_of_mem _ ho)) _ ?_
    have h0 := h op (List.mem_cons_self ..)
    cases op <;> simp_all [step, setsKeys, zencodeSet, keysSet, confSet,
      dataSet, verbositySet, printSet, successSet, errorSet, execCall,
      resetOp, setup, SelfState.empty]

theorem data_undef_preserved (ops : List Op)
    (h : ∀ op ∈ ops, setsData op = false) (st : ZState)
    (hz : st.self.data = .undef) : (run st ops).self.data = .undef := by
  induction ops generalizing st with
  | nil => exact hz
  | cons op ops ih =>
    refine ih (fun o ho => h o (List.mem_cons_of_mem _ ho)) _ ?_
    have h0 := h op (List.mem_cons_self ..)
    cases op <;> simp_all [step, setsData, zencodeSet, keysSet, confSet,
      dataSet, verbositySet, printSet, successSet, errorSet, execCall,
      resetOp, setup, SelfState.empty]

theorem verbosity_undef_preserved (ops : List Op)
    (h : ∀ op ∈ ops, setsVerbosity op = false) (st : ZState)
    (hz : st.self.verbosity = .undef) :
    (run st ops).self.verbosity = .undef := by
  induction ops generalizing st with
  | nil => exact hz
  | cons op ops ih =>
    refine ih (fun o ho => h o (List.mem_cons_of_mem _ ho)) _ ?_
    have h0 := h op (List.mem_cons_self ..)
    cases op <;> simp_all [step, setsVerbosity, zencodeSet, keysSet, confSet,
      dataSet, verbositySet, printSet, successSet, errorSet, execCall,
      resetOp, setup, SelfState.empty]

/-- Claim C1, counterexample. On the fresh module state no field has been
set by any setter or init, yet the foreign call issued by exec passes the
JS undefined sentinel as the script argument, not the documented default
empty string: zenroomExec gives conf, keys, data and verbosity default
parameter values but gives zencode none, so self.zencode, still undefined,
reaches C.ccall unchanged. -/
theorem c1_counterexample :
    (run initState [Op.exec]).trace =
      [⟨.undef, .null, .null, .null, .num 1⟩] ∧
    (JSVal.undef ≠ JSVal.str "") :=
  ⟨rfl, fun h => JSVal.noConfusion h⟩

/-- Claim C1, amended: for every sequence of operations containing no
setter or init for the given field, the foreign call an exec then issues
carries the documented default for configuration, keys, data and verbosity
(null, null, null, 1); the script argument, however, crosses the boundary
as the undefined sentinel itself, not as the empty string, because
zenroomExec declares no default parameter for it. -/
theorem c1_amended (ops : List Op) :
    ((∀ op ∈ ops, setsScript op = false) →
      (execArgs (run initState ops)).zencode = .undef) ∧
    ((∀ op ∈ ops, setsConf op = false) →
      (execArgs (run initState ops)).conf = .null) ∧
    ((∀ op ∈ ops, setsKeys op = false) →
      (execArgs (run initState ops)).keys = .null) ∧
    ((∀ op ∈ ops, setsData op = false) →
      (execArgs (run initState ops)).data = .null) ∧
    ((∀ op ∈ ops, setsVerbosity op = false) →
      (execArgs (run initState ops)).verbosity = .num 1) := by
  refine ⟨fun h => ?_, fun h => ?_, fun h => ?_, fun h => ?_, fun h => ?_⟩
  · have := zencode_undef_preserved ops h initState rfl
    simp [execArgs, zenroomExec, this]
  · have := conf_undef_preserved ops h initState rfl
    simp [execArgs, zenroomExec, this, JSVal.orDefault]
  · have := keys_undef_preserved ops h initState rfl
    simp [execArgs, zenroomExec, this, JSVal.orDefault]
  · have := data_undef_preserved ops h initState rfl
    simp [execArgs, zenroomExec, this, JSVal.orDefault]
  · have := verbosity_undef_preserved ops h initState rfl
    simp [execArgs, zenroomExec, this, JSVal.orDefault]

/-- Witness for the amended claim C1 at the empty operation sequence. -/
theorem c1_amended_witness :
    (execArgs (run initState [])).zencode = .undef ∧
    (execArgs (run initState [])).conf = .null ∧
    (execArgs (run initState [])).keys = .null ∧
    (execArgs (run initState [])).data = .null ∧
    (execArgs (run initState [])).verbosity = .num 1 := by
  have h := c1_amended []
  exact ⟨h.1 (by simp), h.2.1 (by simp), h.2.2.1 (by simp),
    h.2.2.2.1 (by simp), h.2.2.2.2 (by simp)⟩

/-- Claim C2, counterexample. Even from the fresh all-default state,
init(\x7b\x7d) followed by exec() and reset() followed by exec() do not
produce the same foreign call: init re-derives the script field through
zencode(options.zencode || ""), so exec sends the empty string, while
after reset the script field is undefined and exec sends the undefined
sentinel. The two calls differ in their first argument. -/
theorem c2_counterexample :
    (run initState [Op.init Options.empty, Op.exec]).trace =
      [⟨.str "", .null, .null, .null, .num 1⟩] ∧
    (run initState [Op.reset, Op.exec]).trace =
      [⟨.undef, .null, .null, .null, .num 1⟩] ∧
    (⟨.str "", .null, .null, .null, .num 1⟩ : CCall) ≠
      ⟨.undef, .null, .null, .null, .num 1⟩ :=
  ⟨rfl, rfl, fun h => JSVal.noConfusion (congrArg CCall.zencode h)⟩

/-- Claim C2, amended: from any state whose persistent options store is
empty, init(\x7b\x7d) followed by exec() and reset() followed by exec()
dispatch foreign calls that agree on the configuration, keys, data and
verbosity arguments (null, null, null, 1) but differ on the script
argument: the empty string after init(\x7b\x7d), the undefined sentinel
after reset(). -/
theorem c2_amended (st : ZState) (h : st.self.options = Options.empty) :
    (run st [Op.init Options.empty, Op.exec]).trace =
      st.trace ++ [⟨.str "", .null, .null, .null, .num 1⟩] ∧
    (run st [Op.reset, Op.exec]).trace =
      st.trace ++ [⟨.undef, .null, .null, .null, .num 1⟩] := by
  constructor
  · simp [run, step, initOp, h, Options.assign, Options.empty, JSVal.orDefault,
      truthy, zencodeSet, keysSet, keysStored, confSet, dataSet, verbositySet,
      printSet, successSet, errorSet, execCall, execArgs, zenroomExec, stringify]
  · simp [run, step, resetOp, setup, SelfState.empty, printSet, successSet,
      errorSet, execCall, execArgs, zenroomExec, JSVal.orDefault]

/-- Witness for the amended claim C2 at the fresh module state. -/
theorem c2_amended_witness :
    (run initState [Op.init Options.empty, Op.exec]).trace =
      initState.trace ++ [⟨.str "", .null, .null, .null, .num 1⟩] ∧
    (run initState [Op.reset, Op.exec]).trace =
      initState.trace ++ [⟨.undef, .null, .null, .null, .num 1⟩] :=
  c2_amended initState rfl

/-- Claim C3, confirmed. After reset(), from any prior state whatsoever,
the Execution State is the all-defaults configuration: the five payload
fields are cleared back to undefined, the options store is empty, the
three hooks hold their factory defaults (console output for print,
no-ops for success and failure), and the Callback Hook Registry slots
C.print, C.exec_ok and C.exec_error are rewritten to those defaults as
well, the print slot reaching the default console hook. -/
theorem c3_reset_restores_defaults (st : ZState) :
    (resetOp st).self = ⟨.undef, .undef, .undef, .undef, .undef,
      some .consoleLog, some .noop, some .noop, Options.empty⟩ ∧
    (resetOp st).reg = ⟨.wrapper, some .noop, some .noop⟩ ∧
    printSlotHook (resetOp st) = some .consoleLog :=
  ⟨rfl, rfl, rfl⟩

/-- Claim C7, confirmed. reset() is idempotent: from any state, two
consecutive resets leave the Execution State, the options store, the
Callback Hook Registry and the call trace exactly as one reset does. -/
theorem c7_reset_idempotent (st : ZState) :
    resetOp (resetOp st) = resetOp st :=
  rfl

/-- Claim C8, confirmed. exec() issues exactly one foreign call, whose
five arguments are the current Execution State fields marshaled in the
fixed order (script, configuration, keys, data, verbosity) through
zenroomExec; it returns the module handle and leaves self and the
registry untouched, so a second exec() with nothing in between appends a
second, identical call. -/
theorem c8_exec_single_call (st : ZState) :
    (execCall st).2 = Handle.zenroom ∧
    (execCall st).1.self = st.self ∧
    (execCall st).1.reg = st.reg ∧
    (execCall st).1.trace = st.trace ++
      [zenroomExec st.self.zencode st.self.conf st.self.keys st.self.data
        st.self.verbosity] ∧
    (run st [Op.exec, Op.exec]).trace =
      st.trace ++ [execArgs st, execArgs st] := by
  refine ⟨rfl, rfl, rfl, rfl, ?_⟩
  simp [run, step, execCall, execArgs]

/-- Claim C10, confirmed. reset() also empties the persistent options
store, so a following init merges into an empty store: the Execution
State derived by init after a reset does not depend on anything that
happened before the reset, and the store afterwards holds exactly the
merge of the new options into the empty store. -/
theorem c10_reset_clears_options (st st2 : ZState) (o : Options) :
    (resetOp st).self.options = Options.empty ∧
    (initOp o (resetOp st)).self = (initOp o (resetOp st2)).self ∧
    (initOp o (resetOp st)).self.options = Options.assign Options.empty o :=
  ⟨rfl, rfl, rfl⟩

/-- Two options objects mention no common field: for each recognized
field, at least one of the two leaves it absent. -/
def OptDisjoint (o1 o2 : Options) : Prop :=
  (o1.zencode = .undef ∨ o2.zencode = .undef) ∧
  (o1.keys = .undef ∨ o2.keys = .undef) ∧
  (o1.conf = .undef ∨ o2.conf = .undef) ∧
  (o1.data = .undef ∨ o2.data = .undef) ∧
  (o1.print = none ∨ o2.print = none) ∧
  (o1.success = none ∨ o2.success = none) ∧
  (o1.error = none ∨ o2.error = none) ∧
  (o1.verbosity = .undef ∨ o2.verbosity = .undef)

/-- The options object with only the zencode property present. -/
def onlyZencode (v : JSVal) : Options :=
  ⟨v, .undef, .undef, .undef, none, none, none, .undef⟩

/-- The options object with only the conf property present. -/
def onlyConf (v : JSVal) : Options :=
  ⟨.undef, .undef, v, .undef, none, none, none, .undef⟩

/-- Claim C5, confirmed. The init merge is non-destructive to
unspecified fields: when two successive init calls carry disjoint
options objects, every Execution State field set by the first call still
holds the same value after the second call, because Object.assign leaves
a field the second object does not mention at the value merged by the
first call, and the re-derivation reads only the merged store. In
particular init(zencode: A) then init(conf: umm), from any state, leaves
zencode A and conf umm. -/
theorem c5_init_merge_nondestructive (st : ZState) (o1 o2 : Options)
    (h : OptDisjoint o1 o2) :
    (o1.zencode ≠ .undef → (run st [Op.init o1, Op.init o2]).self.zencode =
      (run st [Op.init o1]).self.zencode) ∧
    (o1.keys ≠ .undef → (run st [Op.init o1, Op.init o2]).self.keys =
      (run st [Op.init o1]).self.keys) ∧
    (o1.conf ≠ .undef → (run st [Op.init o1, Op.init o2]).self.conf =
      (run st [Op.init o1]).self.conf) ∧
    (o1.data ≠ .undef → (run st [Op.init o1, Op.init o2]).self.data =
      (run st [Op.init o1]).self.data) ∧
    (o1.print ≠ none → (run st [Op.init o1, Op.init o2]).self.print =
      (run st [Op.init o1]).self.print) ∧
    (o1.success ≠ none → (run st [Op.init o1, Op.init o2]).self.success =
      (run st [Op.init o1]).self.success) ∧
    (o1.error ≠ none → (run st [Op.init o1, Op.init o2]).self.error =
      (run st [Op.init o1]).self.error) ∧
    (o1.verbosity ≠ .undef →
      (run st [Op.init o1, Op.init o2]).self.verbosity =
      (run st [Op.init o1]).self.verbosity) ∧
    (run st [Op.init (onlyZencode (.str "A")),
      Op.init (onlyConf (.str "umm"))]).self.zencode = .str "A" ∧
    (run st [Op.init (onlyZencode (.str "A")),
      Op.init (onlyConf (.str "umm"))]).self.conf = .str "umm" := by
  obtain ⟨hz, hk, hc, hd, hp, hs, he, hv⟩ := h
  refine ⟨fun h1 => ?_, fun h1 => ?_, fun h1 => ?_, fun h1 => ?_,
    fun h1 => ?_, fun h1 => ?_, fun h1 => ?_, fun h1 => ?_, ?_, ?_⟩
  · have h2 : o2.zencode = .undef := hz.resolve_left h1
    simp [run, step, initOp, Options.assign, h2, JSVal.orDefault,
      zencodeSet, keysSet, confSet, dataSet, verbositySet, printSet,
      successSet, errorSet]
  · have h2 : o2.keys = .undef := hk.resolve_left h1
    simp [run, step, initOp, Options.assign, h2, JSVal.orDefault,
      zencodeSet, keysSet, confSet, dataSet, verbositySet, printSet,
      successSet, errorSet]
  · have h2 : o2.conf = .undef := hc.resolve_left h1
    simp [run, step, initOp, Options.assign, h2, JSVal.orDefault,
      zencodeSet, keysSet, confSet, dataSet, verbositySet, printSet,
      successSet, errorSet]
  · have h2 : o2.data = .undef := hd.resolve_left h1
    simp [run, step, initOp, Options.assign, h2, JSVal.orDefault,
      zencodeSet, keysSet, confSet, dataSet, verbositySet, printSet,
      successSet, errorSet]
  · have h2 : o2.print = none := hp.resolve_left h1
    simp [run, step, initOp, Options.assign, h2, JSVal.orDefault,
      zencodeSet, keysSet, confSet, dataSet, verbositySet, printSet,
      successSet, errorSet, Option.orElse]
  · have h2 : o2.success = none := hs.resolve_left h1
    simp [run, step, initOp, Options.assign, h2, JSVal.orDefault,
      zencodeSet, keysSet, confSet, dataSet, verbositySet, printSet,
      successSet, errorSet, Option.orElse]
  · have h2 : o2.error = none := he.resolve_left h1
    simp [run, step, initOp, Options.assign, h2, JSVal.orDefault,
      zencodeSet, keysSet, confSet, dataSet, verbositySet, printSet,
      successSet, errorSet, Option.orElse]
  · have h2 : o2.verbosity = .undef := hv.resolve_left h1
    simp [run, step, initOp, Options.assign, h2, JSVal.orDefault,
      zencodeSet, keysSet, confSet, dataSet, verbositySet, printSet,
      successSet, errorSet]
  · rfl
  · rfl

/-- Witness for claim C5: the spec instance init(zencode: A) then
init(conf: umm), run from the fresh module state. -/
theorem c5_witness :
    (run initState [Op.init (onlyZencode (.str "A")),
      Op.init (onlyConf (.str "umm"))]).self.zencode = .str "A" ∧
    (run initState [Op.init (onlyZencode (.str "A")),
      Op.init (onlyConf (.str "umm"))]).self.conf = .str "umm" := by
  have h := c5_init_merge_nondestructive initState
    (onlyZencode (.str "A")) (onlyConf (.str "umm"))
    ⟨Or.inr rfl, Or.inl rfl, Or.inl rfl, Or.inl rfl, Or.inl rfl,
      Or.inl rfl, Or.inl rfl, Or.inl rfl⟩
  exact ⟨h.2.2.2.2.2.2.2.2.1, h.2.2.2.2.2.2.2.2.2⟩

/-- The shape the stored keys field can take in a reachable state:
never assigned (undefined), cleared to null, or a serialized text. -/
def KeysShape (v : JSVal) : Prop :=
  v = .undef ∨ v = .null ∨ ∃ s, v = .str s

theorem keysShape_step (st : ZState) (op : Op)
    (h : KeysShape st.self.keys) : KeysShape (step st op).self.keys := by
  cases op with
  | keys v =>
    by_cases hv : truthy v
    · exact Or.inr (Or.inr ⟨stringify v, by simp [step, keysSet, keysStored, hv]⟩)
    · exact Or.inr (Or.inl (by simp [step, keysSet, keysStored, hv]))
  | init o =>
    by_cases hv : truthy ((Options.assign st.self.options o).keys)
    · refine Or.inr (Or.inr ⟨stringify ((Options.assign st.self.options o).keys), ?_⟩)
      simp [step, initOp, zencodeSet, keysSet, keysStored, confSet, dataSet,
        verbositySet, printSet, successSet, errorSet, hv]
    · refine Or.inr (Or.inl ?_)
      simp [step, initOp, zencodeSet, keysSet, keysStored, confSet, dataSet,
        verbositySet, printSet, successSet, errorSet, hv]
      rfl
  | reset => exact Or.inl rfl
  | _ => simpa [step, zencodeSet, confSet, dataSet, verbositySet,
      printSet, successSet, errorSet, execCall] using h

theorem keysShape_run (ops : List Op) (st : ZState)
    (h : KeysShape st.self.keys) : KeysShape (run st ops).self.keys := by
  induction ops generalizing st with
  | nil => exact h
  | cons op ops ih => exact ih _ (keysShape_step st op h)

/-- Claim C9, confirmed. The keys setter serializes before the foreign
boundary: for a structured value (object or array, both truthy) it stores
the JSON text encoding on Execution State, for null it stores null; and
in every state reachable by any operation sequence, the keys argument of
the foreign call exec would issue is a text or null, never a structured
value, the still-undefined case being mapped to null by the default
parameter of zenroomExec. -/
theorem c9_keys_serialized (ops : List Op) :
    (∀ st fs, (keysSet (.obj fs) st).self.keys = .str (stringify (.obj fs))) ∧
    (∀ st xs, (keysSet (.arr xs) st).self.keys = .str (stringify (.arr xs))) ∧
    (∀ st, (keysSet .null st).self.keys = .null) ∧
    ((execArgs (run initState ops)).keys = .null ∨
      ∃ s, (execArgs (run initState ops)).keys = .str s) := by
  refine ⟨fun st fs => rfl, fun st xs => rfl, fun st => rfl, ?_⟩
  have h := keysShape_run ops initState (Or.inl rfl)
  rcases h with h | h | ⟨s, h⟩
  · exact Or.inl (by simp [execArgs, zenroomExec, h, JSVal.orDefault])
  · exact Or.inl (by simp [execArgs, zenroomExec, h, JSVal.orDefault])
  · exact Or.inr ⟨s, by simp [execArgs, zenroomExec, h, JSVal.orDefault]⟩

/-- The print hook an operation registers (through the print setter it
ends up calling), given the state it runs in: the print setter registers
its argument; init registers the merged stored hook or the console
default; reset registers the console default through __setup; every other
operation registers nothing. -/
def regPrintOf (st : ZState) : Op → Option Hook
  | .print h => some h
  | .init o => some ((Options.assign st.self.options o).print.getD .consoleLog)
  | .reset => some .consoleLog
  | _ => none

/-- The success hook an operation registers, given the state it runs in. -/
def regSuccessOf (st : ZState) : Op → Option Hook
  | .success h => some h
  | .init o => some ((Options.assign st.self.options o).success.getD .noop)
  | .reset => some .noop
  | _ => none

/-- The error hook an operation registers, given the state it runs in. -/
def regErrorOf (st : ZState) : Op → Option Hook
  | .error h => some h
  | .init o => some ((Options.assign st.self.options o).error.getD .noop)
  | .reset => some .noop
  | _ => none

/-- The most recently registered print hook over a run (none when the
sequence registers no print hook). -/
def lastPrintReg : ZState → List Op → Option Hook
  | _, [] => none
  | st, op :: ops =>
    (lastPrintReg (step st op) ops).orElse fun _ => regPrintOf st op

def lastSuccessReg : ZState → List Op → Option Hook
  | _, [] => none
  | st, op :: ops =>
    (lastSuccessReg (step st op) ops).orElse fun _ => regSuccessOf st op

def lastErrorReg : ZState → List Op → Option Hook
  | _, [] => none
  | st, op :: ops =>
    (lastErrorReg (step st op) ops).orElse fun _ => regErrorOf st op

/-- The registry mirrors the hooks of self: the print slot holds the
delegating wrapper, and the exec_ok and exec_error slots hold exactly
self.success and self.error. -/
def HookSync (st : ZState) : Prop :=
  st.reg.print = .wrapper ∧ st.reg.exec_ok = st.self.success ∧
    st.reg.exec_error = st.self.error

theorem hookSync_step (st : ZState) (op : Op) (h : HookSync st) :
    HookSync (step st op) := by
  obtain ⟨h1, h2, h3⟩ := h
  cases op <;> simp_all [step, HookSync, zencodeSet, keysSet, confSet,
    dataSet, verbositySet, printSet, successSet, errorSet, execCall,
    initOp, resetOp, setup, SelfState.empty]

theorem hookSync_run (ops : List Op) (st : ZState) (h : HookSync st) :
    HookSync (run st ops) := by
  induction ops generalizing st with
  | nil => exact h
  | cons op ops ih => exact ih _ (hookSync_step st op h)

theorem run_print_hook (ops : List Op) (st : ZState) :
    (run st ops).self.print =
      match lastPrintReg st ops with
      | some h => some h
      | none => st.self.print := by
  induction ops generalizing st with
  | nil => simp [lastPrintReg]
  | cons op ops ih =>
    rw [run_cons, ih]
    cases hl : lastPrintReg (step st op) ops with
    | some h => simp [lastPrintReg, hl, Option.orElse]
    | none =>
      simp only [lastPrintReg, hl, Option.orElse]
      cases op <;> simp [step, regPrintOf, zencodeSet, keysSet, confSet,
        dataSet, verbositySet, printSet, successSet, errorSet, execCall,
        initOp, resetOp, setup, SelfState.empty]

theorem run_success_hook (ops : List Op) (st : ZState) :
    (run st ops).self.success =
      match lastSuccessReg st ops with
      | some h => some h
      | none => st.self.success := by
  induction ops generalizing st with
  | nil => simp [lastSuccessReg]
  | cons op ops ih =>
    rw [run_cons, ih]
    cases hl : lastSuccessReg (step st op) ops with
    | some h => simp [lastSuccessReg, hl, Option.orElse]
    | none =>
      simp only [lastSuccessReg, hl, Option.orElse]
      cases op <;> simp [step, regSuccessOf, zencodeSet, keysSet, confSet,
        dataSet, verbositySet, printSet, successSet, errorSet, execCall,
        initOp, resetOp, setup, SelfState.empty]

theorem run_error_hook (ops : List Op) (st : ZState) :
    (run st ops).self.error =
      match lastErrorReg st ops with
      | some h => some h
      | none => st.self.error := by
  induction ops generalizing st with
  | nil => simp [lastErrorReg]
  | cons op ops ih =>
    rw [run_cons, ih]
    cases hl : lastErrorReg (step st op) ops with
    | some h => simp [lastErrorReg, hl, Option.orElse]
    | none =>
      simp only [lastErrorReg, hl, Option.orElse]
      cases op <;> simp [step, regErrorOf, zencodeSet, keysSet, confSet,
        dataSet, verbositySet, printSet, successSet, errorSet, execCall,
        initOp, resetOp, setup, SelfState.empty]

/-- Claim C4, confirmed. After any sequence of operations from the fresh
module state, each registry slot invokes exactly the most recently
registered hook of its kind, falling back to the factory default when the
sequence registered none: an invocation of C.print reaches the most
recently registered print hook (default console logging), and C.exec_ok
and C.exec_error hold exactly the most recently registered success and
error hooks (default no-ops). Moreover each hook setter overwrites its
slot immediately at registration time: right after the setter returns,
the slot already reaches the new hook. -/
theorem c4_registry_most_recent (ops : List Op) :
    printSlotHook (run initState ops) =
      some ((lastPrintReg initState ops).getD .consoleLog) ∧
    (run initState ops).reg.exec_ok =
      some ((lastSuccessReg initState ops).getD .noop) ∧
    (run initState ops).reg.exec_error =
      some ((lastErrorReg initState ops).getD .noop) ∧
    (∀ st h, printSlotHook (printSet h st) = some h) ∧
    (∀ st h, (successSet h st).reg.exec_ok = some h) ∧
    (∀ st h, (errorSet h st).reg.exec_error = some h) := by
  obtain ⟨h1, h2, h3⟩ := hookSync_run ops initState ⟨rfl, rfl, rfl⟩
  refine ⟨?_, ?_, ?_, fun st h => rfl, fun st h => rfl, fun st h => rfl⟩
  · rw [printSlotHook, h1, run_print_hook]
    cases hl : lastPrintReg initState ops <;> simp [hl]
    rfl
  · rw [h2, run_success_hook]
    cases hl : lastSuccessReg initState ops <;> simp [hl]
    rfl
  · rw [h3, run_error_hook]
    cases hl : lastErrorReg initState ops <;> simp [hl]
    rfl

/-- The chainable setters: one per payload field plus the three hook
setters. init, exec and reset are not setters. -/
def isSetterOp : Op → Bool
  | .zencode _ => true
  | .keys _ => true
  | .conf _ => true
  | .data _ => true
  | .verbosity _ => true
  | .print _ => true
  | .success _ => true
  | .error _ => true
  | _ => false

/-- The argument of the last zencode setter call in a sequence. -/
def lastSetScript : List Op → Option JSVal
  | [] => none
  | op :: ops =>
    (lastSetScript ops).orElse fun _ =>
      match op with
      | .zencode v => some v
      | _ => none

def lastSetConf : List Op → Option JSVal
  | [] => none
  | op :: ops =>
    (lastSetConf ops).orElse fun _ =>
      match op with
      | .conf v => some v
      | _ => none

def lastSetData : List Op → Option JSVal
  | [] => none
  | op :: ops =>
    (lastSetData ops).orElse fun _ =>
      match op with
      | .data v => some v
      | _ => none

def lastSetVerbosity : List Op → Option JSVal
  | [] => none
  | op :: ops =>
    (lastSetVerbosity ops).orElse fun _ =>
      match op with
      | .verbosity v => some v
      | _ => none

def lastSetKeys : List Op → Option JSVal
  | [] => none
  | op :: ops =>
    (lastSetKeys ops).orElse fun _ =>
      match op with
      | .keys v => some v
      | _ => none

theorem run_setters_zencode (ops : List Op)
    (h : ∀ op ∈ ops, isSetterOp op = true) (st : ZState) :
    (run st ops).self.zencode = (lastSetScript ops).getD st.self.zencode := by
  induction ops generalizing st with
  | nil => simp [lastSetScript]
  | cons op ops ih =>
    rw [run_cons, ih (fun o ho => h o (List.mem_cons_of_mem _ ho))]
    have h0 := h op (List.mem_cons_self ..)
    cases hl : lastSetScript ops with
    | some w => simp [lastSetScript, hl, Option.orElse]
    | none =>
      simp only [lastSetScript, hl, Option.orElse, Option.getD]
      cases op <;> simp_all [step, isSetterOp, zencodeSet, keysSet, confSet,
        dataSet, verbositySet, printSet, successSet, errorSet]

theorem run_setters_conf (ops : List Op)
    (h : ∀ op ∈ ops, isSetterOp op = true) (st : ZState) :
    (run st ops).self.conf = (lastSetConf ops).getD st.self.conf := by
  induction ops generalizing st with
  | nil => simp [lastSetConf]
  | cons op ops ih =>
    rw [run_cons, ih (fun o ho => h o (List.mem_cons_of_mem _ ho))]
    have h0 := h op (List.mem_cons_self ..)
    cases hl : lastSetConf ops with
    | some w => simp [lastSetConf, hl, Option.orElse]
    | none =>
      simp only [lastSetConf, hl, Option.orElse, Option.getD]
      cases op <;> simp_all [step, isSetterOp, zencodeSet, keysSet, confSet,
        dataSet, verbositySet, printSet, successSet, errorSet]

theorem run_setters_data (ops : List Op)
    (h : ∀ op ∈ ops, isSetterOp op = true) (st : ZState) :
    (run st ops).self.data = (lastSetData ops).getD st.self.data := by
  induction ops generalizing st with
  | nil => simp [lastSetData]
  | cons op ops ih =>
    rw [run_cons, ih (fun o ho => h o (List.mem_cons_of_mem _ ho))]
    have h0 := h op (List.mem_cons_self ..)
    cases hl : lastSetData ops with
    | some w => simp [lastSetData, hl, Option.orElse]
    | none =>
      simp only [lastSetData, hl, Option.orElse, Option.getD]
      cases op <;> simp_all [step, isSetterOp, zencodeSet, keysSet, confSet,
        dataSet, verbositySet, printSet, successSet, errorSet]

theorem run_setters_verbosity (ops : List Op)
    (h : ∀ op ∈ ops, isSetterOp op = true) (st : ZState) :
    (run st ops).self.verbosity =
      (lastSetVerbosity ops).getD st.self.verbosity := by
  induction ops generalizing st with
  | nil => simp [lastSetVerbosity]
  | cons op ops ih =>
    rw [run_cons, ih (fun o ho => h o (List.mem_cons_of_mem _ ho))]
    have h0 := h op (List.mem_cons_self ..)
    cases hl : lastSetVerbosity ops with
    | some w => simp [lastSetVerbosity, hl, Option.orElse]
    | none =>
      simp only [lastSetVerbosity, hl, Option.orElse, Option.getD]
      cases op <;> simp_all [step, isSetterOp, zencodeSet, keysSet, confSet,
        dataSet, verbositySet, printSet, successSet, errorSet]

theorem run_setters_keys (ops : List Op)
    (h : ∀ op ∈ ops, isSetterOp op = true) (st : ZState) :
    (run st ops).self.keys =
      ((lastSetKeys ops).map keysStored).getD st.self.keys := by
  induction ops generalizing st with
  | nil => simp [lastSetKeys]
  | cons op ops ih =>
    rw [run_cons, ih (fun o ho => h o (List.mem_cons_of_mem _ ho))]
    have h0 := h op (List.mem_cons_self ..)
    cases hl : lastSetKeys ops with
    | some w => simp [lastSetKeys, hl, Option.orElse]
    | none =>
      simp only [lastSetKeys, hl, Option.orElse, Option.map, Option.getD]
      cases op <;> simp_all [step, isSetterOp, zencodeSet, keysSet, confSet,
        dataSet, verbositySet, printSet, successSet, errorSet]

theorem run_setters_trace (ops : List Op)
    (h : ∀ op ∈ ops, isSetterOp op = true) (st : ZState) :
    (run st ops).trace = st.trace := by
  induction ops generalizing st with
  | nil => rfl
  | cons op ops ih =>
    rw [run_cons, ih (fun o ho => h o (List.mem_cons_of_mem _ ho))]
    have h0 := h op (List.mem_cons_self ..)
    cases op <;> simp_all [step, isSetterOp, zencodeSet, keysSet, confSet,
      dataSet, verbositySet, printSet, successSet, errorSet]

/-- Claim C6, counterexample. The value the keys field carries at the
next exec is not the argument of the last keys setter call: after
keys(\x7b\x7d) the foreign call carries the JSON text of the empty
object, not the object itself, because the setter stores
JSON.stringify(k) rather than k. -/
theorem c6_counterexample :
    (run initState [Op.keys (.obj []), Op.exec]).trace =
      [⟨.undef, .null, .str "\x7b\x7d", .null, .num 1⟩] ∧
    (JSVal.str "\x7b\x7d" ≠ JSVal.obj []) :=
  ⟨rfl, fun h => JSVal.noConfusion h⟩

/-- Claim C6, amended: for every finite sequence of setter calls, the
value of each field at the next exec() is determined solely by the last
setter call for that field, independent of the order and number of calls
to other setters: zencode, conf, data and verbosity store the last
argument unchanged, while keys stores the serialization of the last
argument (its JSON text when truthy, null otherwise); the exec that
follows issues exactly one call marshaling those stored fields. -/
theorem c6_last_write_wins (st0 : ZState) (ops : List Op)
    (h : ∀ op ∈ ops, isSetterOp op = true) :
    (∀ v, lastSetScript ops = some v → (run st0 ops).self.zencode = v) ∧
    (∀ v, lastSetConf ops = some v → (run st0 ops).self.conf = v) ∧
    (∀ v, lastSetData ops = some v → (run st0 ops).self.data = v) ∧
    (∀ v, lastSetVerbosity ops = some v →
      (run st0 ops).self.verbosity = v) ∧
    (∀ v, lastSetKeys ops = some v →
      (run st0 ops).self.keys = keysStored v) ∧
    (run st0 (ops ++ [Op.exec])).trace =
      st0.trace ++ [execArgs (run st0 ops)] := by
  refine ⟨fun v hv => ?_, fun v hv => ?_, fun v hv => ?_, fun v hv => ?_,
    fun v hv => ?_, ?_⟩
  · rw [run_setters_zencode ops h st0, hv]; rfl
  · rw [run_setters_conf ops h st0, hv]; rfl
  · rw [run_setters_data ops h st0, hv]; rfl
  · rw [run_setters_verbosity ops h st0, hv]; rfl
  · rw [run_setters_keys ops h st0, hv]; rfl
  · have ht := run_setters_trace ops h st0
    rw [run_append]
    simp only [run] at ht
    simp [run, step, execCall, ht]

/-- Witness for the amended claim C6: a two-setter sequence from the
fresh module state. -/
theorem c6_last_write_wins_witness :
    (run initState [Op.zencode (.str "s"), Op.keys .null]).self.zencode =
      .str "s" ∧
    (run initState [Op.zencode (.str "s"), Op.keys .null]).self.keys =
      keysStored .null := by
  have h := c6_last_write_wins initState [Op.zencode (.str "s"), Op.keys .null]
    (by simp [isSetterOp])
  exact ⟨h.1 _ rfl, h.2.2.2.2.1 _ rfl⟩
